import Mathlib

/-!
Verification of the blademaster request `Context`
(`pkg/net/http/blademaster/context.go`): the middleware dispatch loop with
abort semantics, the key/value store with typed accessors, the response
rendering façade, binding delegation and remote-IP resolution.

External collaborators of that file (the `render`, `ecode`, `binding` and
`metadata` packages, Go's `net/http` writer, `time.Now`) are not part of the
translated source; they are modelled abstractly, each such definition carries
a doc comment saying what it stands for.
-/

namespace BM

/-! ## Dispatch model (Next / Abort)

In the source, `Context.index` is an `int8` and the loop of `Next` is

    c.index++
    for c.index < int8(len(c.handlers)) {
        c.handlers[c.index](c)
        c.index++
    }

`Abort` sets `c.index = _abortIndex` where `_abortIndex int8 = math.MaxInt8/2`.

For the dispatch claims the handlers under consideration do not call `Next`
themselves and either call `Abort` or not, so a handler's behaviour is one
`Bool` (`true` = it calls `Abort`).  The state records the `int8` index and a
ghost log of the positions of the handlers that have executed.  `int8`
arithmetic is made explicit with `wrap8`; a negative index reaching the slice
access `c.handlers[c.index]` is a Go runtime panic, reported through `DFlag`.
The loop of `Next` is not total in general (with more than 63 handlers an
aborting handler past the sentinel makes the Go loop spin), so it takes fuel.
-/

/-- Reduction of an integer into the `int8` range `[-128, 127]`,
the wraparound Go applies to `int8` arithmetic and conversions. -/
def wrap8 (x : Int) : Int := (x + 128) % 256 - 128

/-- `_abortIndex int8 = math.MaxInt8 / 2` (= 63). -/
def abortSentinel : Int := 63

/-- Dispatch state: the `int8` flow-control index of the `Context`, plus a
ghost log of the handler positions executed so far (in execution order). -/
structure DState where
  index : Int
  log : List Nat
  deriving Repr, DecidableEq

/-- Outcome flag of a dispatch run: normal return, Go runtime panic from a
negative slice index, or fuel exhaustion (the Go loop can really diverge when
an aborting handler sits past the sentinel in an over-long chain). -/
inductive DFlag where
  | ok
  | panicked
  | fuelOut
  deriving Repr, DecidableEq

/-- Effect of running the handler at position `k`: its execution is logged;
if it calls `Abort()` the index becomes the sentinel (`c.index = _abortIndex`),
otherwise the index is untouched.  The handler does not call `Next` itself. -/
def runHandler (aborts : Bool) (k : Nat) (s : DState) : DState :=
  { index := if aborts then abortSentinel else s.index, log := s.log ++ [k] }

/-- The loop of `Next`: `for c.index < int8(len(c.handlers)) {
c.handlers[c.index](c); c.index++ }`, with the length cast to `int8` as in the
source and the increment wrapping as `int8` does. -/
def nextLoop (handlers : List Bool) : Nat → DState → DState × DFlag
  | 0, s => (s, DFlag.fuelOut)
  | Nat.succ fuel, s =>
    if s.index < wrap8 ((handlers.length : Int)) then
      if s.index < 0 then (s, DFlag.panicked)
      else
        match handlers.get? s.index.toNat with
        | none => (s, DFlag.panicked)
        | some aborts =>
          let t := runHandler aborts s.index.toNat s
          nextLoop handlers fuel { t with index := wrap8 (t.index + 1) }
    else (s, DFlag.ok)

/-- `Next()`: increment the index (as `int8`), then run the loop. -/
def Next (handlers : List Bool) (fuel : Nat) (s : DState) : DState × DFlag :=
  nextLoop handlers fuel { s with index := wrap8 (s.index + 1) }

/-- `Abort()`: `c.index = _abortIndex`. -/
def Abort (s : DState) : DState := { s with index := abortSentinel }

/-- `IsAborted()`: `c.index >= _abortIndex`. -/
def IsAborted (s : DState) : Bool := abortSentinel ≤ s.index

/-- `n` successive top-level calls of `Next()`, stopping if a call panics or
runs out of fuel (a Go panic ends the request). -/
def NextN (handlers : List Bool) (fuel : Nat) : Nat → DState × DFlag → DState × DFlag
  | 0, r => r
  | Nat.succ n, (s, f) =>
    if f = DFlag.ok then NextN handlers fuel n (Next handlers fuel s) else (s, f)

theorem wrap8_eq_self {x : Int} (h1 : -128 ≤ x) (h2 : x ≤ 127) : wrap8 x = x := by
  unfold wrap8
  omega

theorem wrap8_len {n : Nat} (h : n ≤ 63) : wrap8 ((n : Int)) = (n : Int) := by
  unfold wrap8
  omega

theorem nextLoop_stop (handlers : List Bool) (fuel : Nat) (s : DState)
    (h : ¬ s.index < wrap8 ((handlers.length : Int))) :
    nextLoop handlers (fuel + 1) s = (s, DFlag.ok) := by
  unfold nextLoop
  rw [if_neg h]

theorem nextLoop_panic (handlers : List Bool) (fuel : Nat) (s : DState)
    (h1 : s.index < wrap8 ((handlers.length : Int))) (h2 : s.index < 0) :
    nextLoop handlers (fuel + 1) s = (s, DFlag.panicked) := by
  unfold nextLoop
  rw [if_pos h1, if_pos h2]

theorem nextLoop_step_true (handlers : List Bool) (fuel : Nat) (s : DState)
    (h1 : s.index < wrap8 ((handlers.length : Int))) (h2 : ¬ s.index < 0)
    (h3 : handlers.get? s.index.toNat = some true) :
    nextLoop handlers (fuel + 1) s =
      nextLoop handlers fuel ⟨64, s.log ++ [s.index.toNat]⟩ := by
  rw [nextLoop, if_pos h1, if_neg h2, h3]
  norm_num [runHandler, wrap8, abortSentinel]

theorem nextLoop_step_false (handlers : List Bool) (fuel : Nat) (s : DState)
    (h1 : s.index < wrap8 ((handlers.length : Int))) (h2 : ¬ s.index < 0)
    (h3 : handlers.get? s.index.toNat = some false) :
    nextLoop handlers (fuel + 1) s =
      nextLoop handlers fuel ⟨wrap8 (s.index + 1), s.log ++ [s.index.toNat]⟩ := by
  rw [nextLoop, if_pos h1, if_neg h2, h3]
  norm_num [runHandler]

/-- From an aborted index (sentinel or beyond, still in `int8` range), one
`Next` executes no handler and either returns with the index still at or past
the sentinel, or panics, or runs out of fuel. -/
theorem next_from_aborted (handlers : List Bool) (fuel : Nat) (s : DState)
    (hlen : handlers.length ≤ 63)
    (hlo : abortSentinel ≤ s.index) (hhi : s.index ≤ 127) :
    (Next handlers fuel s).1.log = s.log ∧
    ((Next handlers fuel s).2 = DFlag.ok →
      abortSentinel ≤ (Next handlers fuel s).1.index ∧
        (Next handlers fuel s).1.index ≤ 127) := by
  have hw : wrap8 ((handlers.length : Int)) = (handlers.length : Int) :=
    wrap8_len hlen
  have hlen' : (handlers.length : Int) ≤ 63 := by exact_mod_cast hlen
  have hlo' : (63 : Int) ≤ s.index := hlo
  unfold Next
  cases fuel with
  | zero => exact ⟨rfl, fun h => nomatch h⟩
  | succ fuel =>
    by_cases hcase : s.index = 127
    · have hwrap : wrap8 (s.index + 1) = -128 := by
        rw [hcase]
        norm_num [wrap8]
      rw [hwrap]
      rw [nextLoop_panic handlers fuel _
        (by rw [hw]; show (-128 : Int) < (handlers.length : Int); omega)
        (by show (-128 : Int) < 0; omega)]
      exact ⟨rfl, fun h => nomatch h⟩
    · have hwrap : wrap8 (s.index + 1) = s.index + 1 :=
        wrap8_eq_self (by omega) (by omega)
      rw [hwrap]
      rw [nextLoop_stop handlers fuel _
        (by rw [hw]; show ¬ s.index + 1 < (handlers.length : Int); omega)]
      refine ⟨rfl, fun _ => ⟨?_, ?_⟩⟩
      · show abortSentinel ≤ s.index + 1
        show (63 : Int) ≤ s.index + 1
        omega
      · show s.index + 1 ≤ 127
        omega

/-- C1.  After `Abort()` is called, no handler in the list executes: any
number of subsequent top-level `Next()` calls leaves the execution log
untouched, and so does the continuation of an in-progress `Next()` loop
(whose resumption — increment, bound check — is exactly `Next` applied to the
post-handler state, whose index is at or past the sentinel).  The hypothesis
`handlers.length ≤ 63` is the framework invariant that the sentinel exceeds
the chain length (chain construction lives outside the translated file). -/
theorem claim_C1_abort_stops_dispatch
    (handlers : List Bool) (s : DState) (fuel n : Nat)
    (hlen : handlers.length ≤ 63)
    (hlo : abortSentinel ≤ s.index) (hhi : s.index ≤ 127) :
    (Next handlers fuel s).1.log = s.log ∧
    (NextN handlers fuel n (Abort s, DFlag.ok)).1.log = s.log := by
  refine ⟨(next_from_aborted handlers fuel s hlen hlo hhi).1, ?_⟩
  have key : ∀ m (t : DState) (f : DFlag),
      t.log = s.log → (f = DFlag.ok → abortSentinel ≤ t.index ∧ t.index ≤ 127) →
      (NextN handlers fuel m (t, f)).1.log = s.log := by
    intro m
    induction m with
    | zero => intro t f hlog _; exact hlog
    | succ m ih =>
      intro t f hlog hidx
      by_cases hf : f = DFlag.ok
      · subst hf
        obtain ⟨h1, h2⟩ := hidx rfl
        simp only [NextN, if_pos rfl]
        have step := next_from_aborted handlers fuel t hlen h1 h2
        exact ih (Next handlers fuel t).1 (Next handlers fuel t).2
          (by rw [step.1, hlog]) step.2
      · simp only [NextN, if_neg hf]
        exact hlog
  exact key n (Abort s) DFlag.ok rfl (fun _ => ⟨le_refl _, by norm_num [Abort, abortSentinel]⟩)

/-- Witness for C1 at a concrete chain and state. -/
theorem claim_C1_witness :
    (Next [false, true] 10 ⟨63, [0]⟩).1.log = [0] ∧
    (NextN [false, true] 10 4 (Abort ⟨63, [0]⟩, DFlag.ok)).1.log = [0] :=
  claim_C1_abort_stops_dispatch [false, true] ⟨63, [0]⟩ 10 4 (by decide)
    (by decide) (by decide)

/-- Running the loop from position `i ≤ k` when handlers `i..k-1` do not abort
and handler `k` aborts: handlers `i..k` run once each in order, then the loop
exits normally with the index one past the sentinel. -/
theorem nextLoop_abort_at (handlers : List Bool) (k : Nat)
    (hlen : handlers.length ≤ 63) (hk : k < handlers.length)
    (habort : handlers.get? k = some true) :
    ∀ fuel i log, i ≤ k → (∀ j, i ≤ j → j < k → handlers.get? j = some false) →
      k + 2 - i ≤ fuel →
      nextLoop handlers fuel ⟨(i : Int), log⟩ =
        (⟨64, log ++ List.range' i (k + 1 - i)⟩, DFlag.ok) := by
  intro fuel
  induction fuel with
  | zero => intro i log hik _ hfuel; omega
  | succ fuel ih =>
    intro i log hik hmid hfuel
    have hw : wrap8 ((handlers.length : Int)) = (handlers.length : Int) :=
      wrap8_len hlen
    have h1 : ((⟨(i : Int), log⟩ : DState)).index < wrap8 ((handlers.length : Int)) := by
      rw [hw]
      show (i : Int) < (handlers.length : Int)
      exact_mod_cast (by omega : i < handlers.length)
    have h2 : ¬ ((⟨(i : Int), log⟩ : DState)).index < 0 := by
      show ¬ (i : Int) < 0
      omega
    have htoNat : ((i : Int)).toNat = i := by omega
    by_cases hik' : i = k
    · subst hik'
      rw [nextLoop_step_true handlers fuel _ h1 h2
        (by show handlers.get? ((i : Int)).toNat = some true; rw [htoNat]; exact habort)]
      obtain ⟨fuel', rfl⟩ : ∃ m, fuel = m + 1 := ⟨fuel - 1, by omega⟩
      rw [nextLoop_stop handlers fuel' _ (by
        rw [hw]
        show ¬ (64 : Int) < (handlers.length : Int)
        have : (handlers.length : Int) ≤ 63 := by exact_mod_cast hlen
        omega)]
      have hrange : List.range' i (i + 1 - i) = [i] := by
        have h0 : i + 1 - i = 1 := by omega
        rw [h0, List.range'_one]
      rw [hrange, htoNat]
    · have hilt' : i < k := by omega
      rw [nextLoop_step_false handlers fuel _ h1 h2
        (by show handlers.get? ((i : Int)).toNat = some false; rw [htoNat]
            exact hmid i (le_refl i) hilt')]
      have hwrap : wrap8 (((⟨(i : Int), log⟩ : DState)).index + 1) = ((i + 1 : Nat) : Int) := by
        show wrap8 ((i : Int) + 1) = ((i + 1 : Nat) : Int)
        rw [wrap8_eq_self (by omega) (by omega)]
        push_cast
        ring
      rw [hwrap, htoNat]
      rw [ih (i + 1) (log ++ [i]) (by omega)
        (fun j hj1 hj2 => hmid j (by omega) hj2) (by omega)]
      have hsplit : List.range' i (k + 1 - i) = i :: List.range' (i + 1) (k - i) := by
        have hn : k + 1 - i = (k - i) + 1 := by omega
        rw [hn, List.range'_succ]
      rw [hsplit]
      simp

/-- C2.  On a chain of `N ≤ 63` handlers in which handler `k` (`k < N`) calls
`Abort()`, the earlier ones do not, and none calls `Next()` itself, a single
top-level `Next()` from the reset index `-1` executes handlers `0..k` exactly
once each, in order (log `= [0, 1, …, k]`), returns normally, and never
executes any handler past `k`. -/
theorem claim_C2_abort_partitions_chain
    (handlers : List Bool) (k fuel : Nat)
    (hlen : handlers.length ≤ 63) (hk : k < handlers.length)
    (habort : handlers.get? k = some true)
    (hbefore : ∀ j, j < k → handlers.get? j = some false)
    (hfuel : handlers.length + 2 ≤ fuel) :
    (Next handlers fuel ⟨-1, []⟩).1.log = List.range (k + 1) ∧
    (Next handlers fuel ⟨-1, []⟩).2 = DFlag.ok ∧
    ∀ j, k < j → j ∉ (Next handlers fuel ⟨-1, []⟩).1.log := by
  have hstart : Next handlers fuel ⟨-1, []⟩ = nextLoop handlers fuel ⟨((0 : Nat) : Int), []⟩ := by
    unfold Next
    norm_num [wrap8]
  rw [hstart]
  rw [nextLoop_abort_at handlers k hlen hk habort fuel 0 []
    (by omega) (fun j _ hj => hbefore j hj) (by omega)]
  refine ⟨?_, rfl, ?_⟩
  · simp [List.range_eq_range']
  · intro j hj
    simp only [List.nil_append, List.mem_range']
    omega

/-- Witness for C2: chain `[no-abort, abort, no-abort]`, `k = 1`. -/
theorem claim_C2_witness :
    (Next [false, true, false] 65 ⟨-1, []⟩).1.log = List.range (1 + 1) ∧
    (Next [false, true, false] 65 ⟨-1, []⟩).2 = DFlag.ok ∧
    2 ∉ (Next [false, true, false] 65 ⟨-1, []⟩).1.log := by
  have h := claim_C2_abort_partitions_chain [false, true, false] 1 65
    (by decide) (by decide) (by decide)
    (by intro j hj; interval_cases j; decide) (by decide)
  exact ⟨h.1, h.2.1, h.2.2 2 (by decide)⟩

/-! ## Values, errors and external resolvers

`context.go` stores request-scoped values as `interface{}` and never computes
on them: a value is only stored, retrieved, and checked against a dynamic
type.  `GoVal` therefore tags each value with its Go dynamic type; machine
integers are carried by their mathematical value (no arithmetic happens on
them in the translated file) and a `float64` by its bit pattern. -/

inductive GoVal where
  | vnil
  | vstr (s : String)
  | vbool (b : Bool)
  | vint (i : Int)
  | vint64 (i : Int)
  | vuint (u : Nat)
  | vuint64 (u : Nat)
  | vfloat64 (bits : Nat)
  | vother (tag : Nat)
  deriving Repr, DecidableEq

/-- A Go `map[string]interface{}` by its lookup function. -/
def GoMap : Type := String → Option GoVal

/-- Go map assignment `m[k] = v`. -/
def goMapSet (m : GoMap) (k : String) (v : GoVal) : GoMap :=
  fun q => if q = k then some v else m q

/-- A Go `error` value as far as `context.go` inspects one: an `ecode` code
used as an error, a `validator.ValidationErrors` collection (with its raw
`Error()` text and the translated field messages already applied, the
translation itself being external), any other error by its `Error()` text,
and `errors.WithStack` wrapping. -/
inductive GoErr where
  | ecodeErr (code : Int) (message : String)
  | validation (raw : String) (translated : List String)
  | plain (msg : String)
  | wrapped (e : GoErr)
  deriving Repr, DecidableEq

/-- `err.Error()`.  Modelled from the spec for the external error kinds: an
`ecode` prints its numeric code, a validation collection its raw text,
`errors.WithStack` delegates to the wrapped error. -/
def GoErr.errString : GoErr → String
  | .ecodeErr code _ => toString code
  | .validation raw _ => raw
  | .plain m => m
  | .wrapped e => e.errString

/-- A resolved business (code, message) pair, what `ecode.Cause(err)` exposes
through `Code()` and `Message()`. -/
structure BCode where
  code : Int
  message : String
  deriving Repr, DecidableEq

/-- Modelled from the spec: the external `ecode` package, kept abstract — a
cause resolver mapping any error value (including nil) to a business
(code, message) pair, and the canonical bad-request code `ecode.RequestErr`. -/
structure Env where
  cause : Option GoErr → BCode
  requestErr : BCode

/-- Splitting scan of Go `strings.Split(s, sep)` for a non-empty separator:
at each position, if the separator starts there the accumulated field is
emitted and the separator consumed, otherwise the character joins the current
field.  The fuel is the length of the subject, enough since every step
consumes at least one character. -/
def splitCharsAux (sep : List Char) : Nat → List Char → List Char → List (List Char)
  | 0, rest, acc => [acc.reverse ++ rest]
  | Nat.succ n, s, acc =>
    match s with
    | [] => [acc.reverse]
    | ch :: rest =>
      if sep.isPrefixOf (ch :: rest) then
        acc.reverse :: splitCharsAux sep n (List.drop sep.length (ch :: rest)) []
      else
        splitCharsAux sep n rest (ch :: acc)

/-- Go `strings.Split(s, sep)` (used with the non-empty separators `","` and
`"||"`); in particular `Split("", sep) = [""]`. -/
def goSplit (s sep : String) : List String :=
  (splitCharsAux sep.data s.data.length s.data []).map String.mk

/-- The inbound request as far as `context.go` reads it: method, headers
(`Header.Get`, empty string for a missing name) and parsed form values
(`Form.Get`, empty string for a missing name). -/
structure Request where
  method : String
  headers : String → String
  form : String → String

/-! ## Response writer and render strategies -/

/-- One write into the response body.  Body encoding is external (the
`render` package); each chunk records the structured value handed to the
respective render strategy, plus `str` for the raw bytes the dispatcher
itself writes (the JSONP wrapper). -/
inductive BodyChunk where
  | str (s : String)
  | jsonEnv (code : Int) (message : String) (data : GoVal)
  | mapJSON (m : GoMap)
  | xmlEnv (code : Int) (message : String) (data : GoVal)
  | pbEnv (code : Int) (message : String) (typeUrl : String) (value : List Nat)
  | raw (chunks : List (List Nat))
  | fstring (format : String) (args : List GoVal)
  | redirect (code : Int) (location : String)

/-- The `http.ResponseWriter`: response headers, the status line (written at
most once — net/http ignores a second `WriteHeader`), and the body writes. -/
structure ResponseWriter where
  headers : String → Option String
  status : Option Int
  body : List BodyChunk

/-- `w.Header().Set(key, value)`. -/
def headerSet (w : ResponseWriter) (k v : String) : ResponseWriter :=
  { w with headers := fun q => if q = k then some v else w.headers q }

/-- `w.WriteHeader(code)`: writes the status line on the first call only
(subsequent status writes are no-ops per net/http). -/
def writeHeader (w : ResponseWriter) (code : Int) : ResponseWriter :=
  if w.status.isSome then w else { w with status := some code }

/-- Append body writes. -/
def writeChunks (w : ResponseWriter) (cs : List BodyChunk) : ResponseWriter :=
  { w with body := w.body ++ cs }

/-- Modelled from the spec: a Render Strategy (external `render` package)
produces a content-type header value (none for the redirect strategy) and
body writes, or fails with an encoding error. -/
structure RenderStrategy where
  contentType : Option String
  body : Except String (List BodyChunk)

/-- `render.JSON{Code, Message, Data}`. -/
def renderJSON (code : Int) (message : String) (data : GoVal) : RenderStrategy :=
  ⟨some "application/json; charset=utf-8", Except.ok [BodyChunk.jsonEnv code message data]⟩

/-- `render.MapJSON(m)`. -/
def renderMapJSON (m : GoMap) : RenderStrategy :=
  ⟨some "application/json; charset=utf-8", Except.ok [BodyChunk.mapJSON m]⟩

/-- `render.XML{Code, Message, Data}`. -/
def renderXML (code : Int) (message : String) (data : GoVal) : RenderStrategy :=
  ⟨some "application/xml; charset=utf-8", Except.ok [BodyChunk.xmlEnv code message data]⟩

/-- `render.PB{Code, Message, Data}` with the `types.Any` fields inlined. -/
def renderPB (code : Int) (message : String) (typeUrl : String) (value : List Nat) :
    RenderStrategy :=
  ⟨some "application/x-protobuf", Except.ok [BodyChunk.pbEnv code message typeUrl value]⟩

/-- `render.Data{ContentType, Data}`. -/
def renderData (contentType : String) (ds : List (List Nat)) : RenderStrategy :=
  ⟨some contentType, Except.ok [BodyChunk.raw ds]⟩

/-- `render.String{Format, Data}` (the `fmt` formatting itself is external). -/
def renderString (format : String) (args : List GoVal) : RenderStrategy :=
  ⟨some "text/plain; charset=utf-8", Except.ok [BodyChunk.fstring format args]⟩

/-- `render.Redirect{Code, Location, Request}`: sets no content type; the
redirect status and Location header are written by the strategy itself. -/
def renderRedirect (code : Int) (location : String) : RenderStrategy :=
  ⟨none, Except.ok [BodyChunk.redirect code location]⟩

/-- `r.WriteContentType(w)`. -/
def writeContentType (w : ResponseWriter) (r : RenderStrategy) : ResponseWriter :=
  match r.contentType with
  | none => w
  | some ct => headerSet w "Content-Type" ct

/-! ## The Context -/

/-- The route parameter slice, with its Go slice capacity kept explicit so
that the `c.Params[0:0]` truncation of `reset` is expressible. -/
structure ParamsSlice where
  items : List (String × String)
  cap : Nat
  deriving Repr, DecidableEq

/-- The blademaster `Context` struct.  `ctx` is the embedded
`context.Context`, modelled by the request-metadata store it may carry (what
`context.go` reads from it); `handlers` keeps opaque handler identities (the
dispatch behaviour itself is the model at the top of this file); the `engine`
back-pointer is not read by any translated function and is omitted. -/
structure Context where
  ctx : Option (String → Option String)
  Request : Request
  Writer : ResponseWriter
  index : Int
  handlers : List Nat
  Keys : Option GoMap
  Error : Option GoErr
  ErrorMsg : String
  method : String
  RoutePath : String
  Params : ParamsSlice

/-- `reset()`. -/
def Context.reset (c : Context) : Context :=
  { c with
      ctx := none
      index := -1
      handlers := []
      Keys := none
      Error := none
      ErrorMsg := ""
      method := ""
      RoutePath := ""
      Params := { items := [], cap := c.Params.cap } }

/-- `Abort()` on the full context: `c.index = _abortIndex`. -/
def Context.Abort (c : Context) : Context :=
  { c with index := abortSentinel }

/-- `IsAborted()`. -/
def Context.IsAborted (c : Context) : Bool :=
  abortSentinel ≤ c.index

/-! ## Key/value store (the `keysMutex` guards the map; with the store used
from the single dispatch thread the lock has no observable effect and is not
part of the functional model) -/

/-- `Set(key, value)`: lazily allocates the map, then stores. -/
def Context.Set (c : Context) (key : String) (value : GoVal) : Context :=
  let m : GoMap :=
    match c.Keys with
    | none => fun _ => none
    | some m => m
  { c with Keys := some (goMapSet m key value) }

/-- `Get(key)`: returns `(value, exists)`; reading a nil or missing entry
yields the nil interface value and `false`. -/
def Context.Get (c : Context) (key : String) : GoVal × Bool :=
  match c.Keys with
  | none => (GoVal.vnil, false)
  | some m =>
    match m key with
    | none => (GoVal.vnil, false)
    | some v => (v, true)

/-- The Go type assertion `val.(string)` folded to its value-or-zero result. -/
def goValString : GoVal → String
  | GoVal.vstr s => s
  | _ => ""

/-- `val.(bool)` folded to value-or-zero. -/
def goValBool : GoVal → Bool
  | GoVal.vbool b => b
  | _ => false

/-- `val.(int)` folded to value-or-zero. -/
def goValInt : GoVal → Int
  | GoVal.vint i => i
  | _ => 0

/-- `val.(int64)` folded to value-or-zero. -/
def goValInt64 : GoVal → Int
  | GoVal.vint64 i => i
  | _ => 0

/-- `val.(uint)` folded to value-or-zero. -/
def goValUint : GoVal → Nat
  | GoVal.vuint u => u
  | _ => 0

/-- `val.(uint64)` folded to value-or-zero. -/
def goValUint64 : GoVal → Nat
  | GoVal.vuint64 u => u
  | _ => 0

/-- `val.(float64)` folded to value-or-zero (zero = bit pattern 0). -/
def goValFloat64 : GoVal → Nat
  | GoVal.vfloat64 b => b
  | _ => 0

/-- `GetString(key)`. -/
def Context.GetString (c : Context) (key : String) : String :=
  let r := c.Get key
  if r.2 ∧ r.1 ≠ GoVal.vnil then goValString r.1 else ""

/-- `GetBool(key)`. -/
def Context.GetBool (c : Context) (key : String) : Bool :=
  let r := c.Get key
  if r.2 ∧ r.1 ≠ GoVal.vnil then goValBool r.1 else false

/-- `GetInt(key)`. -/
def Context.GetInt (c : Context) (key : String) : Int :=
  let r := c.Get key
  if r.2 ∧ r.1 ≠ GoVal.vnil then goValInt r.1 else 0

/-- `GetUint(key)`. -/
def Context.GetUint (c : Context) (key : String) : Nat :=
  let r := c.Get key
  if r.2 ∧ r.1 ≠ GoVal.vnil then goValUint r.1 else 0

/-- `GetInt64(key)`. -/
def Context.GetInt64 (c : Context) (key : String) : Int :=
  let r := c.Get key
  if r.2 ∧ r.1 ≠ GoVal.vnil then goValInt64 r.1 else 0

/-- `GetUint64(key)`. -/
def Context.GetUint64 (c : Context) (key : String) : Nat :=
  let r := c.Get key
  if r.2 ∧ r.1 ≠ GoVal.vnil then goValUint64 r.1 else 0

/-- `GetFloat64(key)`. -/
def Context.GetFloat64 (c : Context) (key : String) : Nat :=
  let r := c.Get key
  if r.2 ∧ r.1 ≠ GoVal.vnil then goValFloat64 r.1 else 0

/-! ## Response rendering -/

/-- `bodyAllowedForStatus`, the copy of `http.bodyAllowedForStatus`. -/
def bodyAllowedForStatus (status : Int) : Bool :=
  if 100 ≤ status ∧ status ≤ 199 then false
  else if status = 204 then false
  else if status = 304 then false
  else true

/-- `Status(code)`: writes the HTTP status line. -/
def Context.Status (c : Context) (code : Int) : Context :=
  { c with Writer := writeHeader c.Writer code }

/-- Model of Go `text/template.JSEscapeString` per character: the JS-special
characters get their escape sequence, every other character is kept (the
`\uXXXX` escaping of non-printables is irrelevant to the claims: no escape is
ever the empty string, so escaping is empty exactly on the empty string). -/
def jsEscapeChar (c : Char) : String :=
  if c = Char.ofNat 92 then "\\\\"
  else if c = Char.ofNat 39 then "\\u0027"
  else if c = Char.ofNat 34 then "\\u0022"
  else if c = '<' then "\\u003C"
  else if c = '>' then "\\u003E"
  else if c = '&' then "\\u0026"
  else if c = '=' then "\\u003D"
  else String.singleton c

/-- `template.JSEscapeString(s)`. -/
def jsEscapeString (s : String) : String :=
  String.join (s.data.map jsEscapeChar)

/-- `Render(code, r)`: content type via the strategy, status line if the code
is positive, nothing further for a no-body status, JSONP wrapping when the
`callback` form parameter is non-empty, and the strategy's body; a render
error is recorded on `c.Error`. -/
def Context.Render (c : Context) (code : Int) (r : RenderStrategy) : Context :=
  let c := { c with Writer := writeContentType c.Writer r }
  let c := if 0 < code then c.Status code else c
  if bodyAllowedForStatus code = false then c
  else
    let cb := jsEscapeString (c.Request.form "callback")
    let jsonp := cb ≠ ""
    let c :=
      if jsonp then { c with Writer := writeChunks c.Writer [BodyChunk.str cb, BodyChunk.str "("] }
      else c
    match r.body with
    | Except.error e => { c with Error := some (GoErr.plain e) }
    | Except.ok chunks =>
      let c := { c with Writer := writeChunks c.Writer chunks }
      if jsonp then { c with Writer := writeChunks c.Writer [BodyChunk.str ")"] } else c

/-- `writeStatusCode(w, ecode)`: the business code as a decimal string in the
`kratos-status-code` response header. -/
def writeStatusCode (w : ResponseWriter) (ecode : Int) : ResponseWriter :=
  headerSet w "kratos-status-code" (toString ecode)

/-- The legacy four-plus-one-field map `JSON` builds when the business
message splits on the `"||"` separator (`cc` is the split, guarded by the
caller to have at least two parts). -/
def legacyOut (bcode : BCode) (cc : List String) (data : GoVal) (now : Int) : GoMap :=
  goMapSet (goMapSet (goMapSet (goMapSet (goMapSet (fun _ => none)
    "ret" (GoVal.vint bcode.code))
    "message" (GoVal.vstr (cc.getD 1 "")))
    "code" (GoVal.vstr (cc.getD 0 "")))
    "now" (GoVal.vint64 now))
    "data" data

/-- `JSON(data, err)`.  `now` is the ambient `time.Now().Unix()`. -/
def Context.JSON (env : Env) (now : Int) (c : Context) (data : GoVal)
    (err : Option GoErr) : Context :=
  let code : Int := 200
  let c := { c with Error := err }
  let bcode := env.cause err
  let c := { c with Writer := writeStatusCode c.Writer bcode.code }
  let cc := goSplit bcode.message "||"
  if cc.length > 1 then
    c.Render code (renderMapJSON (legacyOut bcode cc data now))
  else
    c.Render code (renderJSON bcode.code bcode.message data)

/-- The map mutation `JSONMap` performs on the caller's map before rendering:
`data["code"]` is overwritten, `data["message"]` only set if absent. -/
def jsonMapMutate (bcode : BCode) (data : GoMap) : GoMap :=
  let data := goMapSet data "code" (GoVal.vint bcode.code)
  if (data "message").isSome then data
  else goMapSet data "message" (GoVal.vstr bcode.message)

/-- `JSONMap(data, err)`. -/
def Context.JSONMap (env : Env) (c : Context) (data : GoMap)
    (err : Option GoErr) : Context :=
  let code : Int := 200
  let c := { c with Error := err }
  let bcode := env.cause err
  let c := { c with Writer := writeStatusCode c.Writer bcode.code }
  c.Render code (renderMapJSON (jsonMapMutate bcode data))

/-- `XML(data, err)`. -/
def Context.XML (env : Env) (c : Context) (data : GoVal)
    (err : Option GoErr) : Context :=
  let code : Int := 200
  let c := { c with Error := err }
  let bcode := env.cause err
  let c := { c with Writer := writeStatusCode c.Writer bcode.code }
  c.Render code (renderXML bcode.code bcode.message data)

/-- A `proto.Message` as `Protobuf` consumes one: its registered full name
and the `proto.Marshal` outcome (external encoding). -/
structure PbMessage where
  name : String
  marshal : Except String (List Nat)

/-- `Protobuf(data, err)`: wraps a non-nil payload in a `types.Any`; a
marshal failure records the error and writes nothing. -/
def Context.Protobuf (env : Env) (c : Context) (data : Option PbMessage)
    (err : Option GoErr) : Context :=
  let code : Int := 200
  let c := { c with Error := err }
  let bcode := env.cause err
  match data with
  | some msg =>
    match msg.marshal with
    | Except.error e => { c with Error := some (GoErr.wrapped (GoErr.plain e)) }
    | Except.ok bs =>
      let c := { c with Writer := writeStatusCode c.Writer bcode.code }
      c.Render code (renderPB bcode.code bcode.message ("type.googleapis.com/" ++ msg.name) bs)
  | none =>
    let c := { c with Writer := writeStatusCode c.Writer bcode.code }
    c.Render code (renderPB bcode.code bcode.message "" [])

/-- `Bytes(code, contentType, data...)`. -/
def Context.Bytes (c : Context) (code : Int) (contentType : String)
    (data : List (List Nat)) : Context :=
  c.Render code (renderData contentType data)

/-- `Redirect(code, location)`: note `Render` is called with `-1`, so the
dispatcher itself writes no status line — the redirect strategy does. -/
def Context.Redirect (c : Context) (code : Int) (location : String) : Context :=
  c.Render (-1) (renderRedirect code location)

/-! ## Binding delegation -/

/-- Modelled from the spec: a binding strategy's decode+validate step
(external `binding` package); `none` is success (the decoded target struct is
outside `context.go`), `some e` failure with error `e`. -/
structure Binding where
  bind : Request → Option GoErr

/-- The client-facing message `mustBindWith` builds: for a
`validator.ValidationErrors` the translated field messages each followed by
`";"` (`message += fmt.Sprintf("%s;", v)`), otherwise the raw `Error()`
text.  (Go iterates the translation map in unspecified order; the model uses
the carried list order.) -/
def bindErrMessage (e : GoErr) : String :=
  match e with
  | GoErr.validation _ translated =>
      List.foldl (fun acc v => acc ++ v ++ ";") "" translated
  | _ => e.errString

/-- `mustBindWith(obj, b)`: on failure records `ecode.RequestErr` and the raw
text, renders an HTTP-200 JSON error envelope, aborts the chain, and returns
the bind error; on success returns nil having touched nothing. -/
def Context.mustBindWith (env : Env) (c : Context) (b : Binding) :
    Context × Option GoErr :=
  match b.bind c.Request with
  | none => (c, none)
  | some e =>
    let c := { c with
        Error := some (GoErr.ecodeErr env.requestErr.code env.requestErr.message)
        ErrorMsg := e.errString }
    let message := bindErrMessage e
    let c := c.Render 200 (renderJSON env.requestErr.code message GoVal.vnil)
    let c := c.Abort
    (c, some e)

/-- `BindWith(obj, b)`. -/
def Context.BindWith (env : Env) (c : Context) (b : Binding) :
    Context × Option GoErr :=
  c.mustBindWith env b

/-- `Bind(obj)`; `defaultB` is the external `binding.Default` selection by
request method and Content-Type header (modelled from the spec). -/
def Context.Bind (env : Env) (defaultB : String → String → Binding)
    (c : Context) : Context × Option GoErr :=
  c.mustBindWith env (defaultB c.Request.method (c.Request.headers "Content-Type"))

/-! ## Remote IP resolution -/

/-- Modelled from the spec: `metadata.String(c, key)` reads the out-of-band
request-metadata store carried by the embedded context; a missing store or
key yields the empty string. -/
def metadataString (c : Context) (key : String) : String :=
  match c.ctx with
  | none => ""
  | some md => (md key).getD ""

/-- The `metadata.RemoteIP` key constant (external `metadata` package). -/
def metadataRemoteIP : String := "remote_ip"

/-- Go `unicode.IsSpace` on the Latin-1 range (the cutset of
`strings.TrimSpace`). -/
def goIsSpace (c : Char) : Bool :=
  c = ' ' ∨ c = Char.ofNat 9 ∨ c = Char.ofNat 10 ∨ c = Char.ofNat 11 ∨
    c = Char.ofNat 12 ∨ c = Char.ofNat 13 ∨ c = Char.ofNat 133 ∨ c = Char.ofNat 160

/-- `strings.TrimSpace`. -/
def goTrimSpace (s : String) : String :=
  String.mk (((s.data.dropWhile goIsSpace).reverse.dropWhile goIsSpace).reverse)

/-- `RemoteIP()`. -/
def Context.RemoteIP (c : Context) : String :=
  let remoteIP := metadataString c metadataRemoteIP
  if remoteIP ≠ "" then remoteIP
  else
    let remoteIP := c.Request.headers "X-Forwarded-For"
    let remoteIP := goTrimSpace ((goSplit remoteIP ",").getD 0 "")
    if remoteIP = "" then goTrimSpace (c.Request.headers "X-Real-Ip")
    else remoteIP

/-! ## Concrete fixtures for closed evaluations -/

/-- A blank context: no metadata, empty request, fresh writer, reset flow
state. -/
def baseCtx : Context :=
  { ctx := none
    Request := { method := "GET", headers := fun _ => "", form := fun _ => "" }
    Writer := { headers := fun _ => none, status := none, body := [] }
    index := -1
    handlers := []
    Keys := none
    Error := none
    ErrorMsg := ""
    method := ""
    RoutePath := ""
    Params := { items := [], cap := 0 } }

/-- A concrete `ecode` environment: an `ecode` error resolves to its own
pair, nil to the canonical success code, anything else to an internal code
with the raw text. -/
def testEnv : Env :=
  { cause := fun e =>
      match e with
      | none => ⟨0, "0"⟩
      | some (GoErr.ecodeErr c m) => ⟨c, m⟩
      | some e => ⟨-500, e.errString⟩
    requestErr := ⟨-400, "-400"⟩ }

/-- A context whose request carries `X-Forwarded-For: "1.2.3.4, 5.6.7.8"`. -/
def xffCtx : Context :=
  { baseCtx with
      Request :=
        { method := "GET"
          form := fun _ => ""
          headers := fun h => if h = "X-Forwarded-For" then "1.2.3.4, 5.6.7.8" else "" } }

/-- The method `String(code, format, values...)` of `Context` (declared after
the other methods because its name shadows the string type inside the
`Context` namespace). -/
def Context.String (c : Context) (code : Int) (format : String)
    (values : List GoVal) : Context :=
  c.Render code (renderString format values)

/-! ## Writer and Render lemmas -/

theorem writeContentType_status (w : ResponseWriter) (r : RenderStrategy) :
    (writeContentType w r).status = w.status := by
  unfold writeContentType
  cases r.contentType <;> rfl

theorem writeContentType_body (w : ResponseWriter) (r : RenderStrategy) :
    (writeContentType w r).body = w.body := by
  unfold writeContentType
  cases r.contentType <;> rfl

theorem writeContentType_headers_ne (w : ResponseWriter) (r : RenderStrategy)
    (k : String) (hk : k ≠ "Content-Type") :
    (writeContentType w r).headers k = w.headers k := by
  unfold writeContentType
  cases r.contentType with
  | none => rfl
  | some ct => simp [headerSet, hk]

theorem writeHeader_fresh (w : ResponseWriter) (code : Int) (h : w.status = none) :
    (writeHeader w code).status = some code := by
  unfold writeHeader
  rw [h]
  rfl

theorem writeStatusCode_lookup (w : ResponseWriter) (code : Int) :
    (writeStatusCode w code).headers "kratos-status-code" = some (toString code) := by
  simp [writeStatusCode, headerSet]

theorem writeStatusCode_lookup_ne (w : ResponseWriter) (code : Int) (k : String)
    (hk : k ≠ "kratos-status-code") :
    (writeStatusCode w code).headers k = w.headers k := by
  simp [writeStatusCode, headerSet, hk]

theorem writeStatusCode_status (w : ResponseWriter) (code : Int) :
    (writeStatusCode w code).status = w.status := rfl

theorem writeStatusCode_body (w : ResponseWriter) (code : Int) :
    (writeStatusCode w code).body = w.body := rfl

/-- The status line after `Render`: written by `Status(code)` exactly when
the code is positive, untouched otherwise (the body path never writes it). -/
theorem render_status (c : Context) (code : Int) (r : RenderStrategy) :
    (c.Render code r).Writer.status =
      (if 0 < code then writeHeader (writeContentType c.Writer r) code
        else writeContentType c.Writer r).status := by
  rcases hb : r.body with e | chunks <;>
    simp only [Context.Render, Context.Status, hb] <;>
    split_ifs <;>
    simp [writeChunks]

/-- Headers other than `Content-Type` are untouched by `Render`. -/
theorem render_headers_ne (c : Context) (code : Int) (r : RenderStrategy)
    (k : String) (hk : k ≠ "Content-Type") :
    (c.Render code r).Writer.headers k = c.Writer.headers k := by
  rcases hb : r.body with e | chunks <;>
    simp only [Context.Render, Context.Status, hb] <;>
    split_ifs <;>
    simp [writeChunks, writeHeader, writeContentType_headers_ne, hk] <;>
    split_ifs <;>
    simp [writeContentType_headers_ne, hk]

/-- For a no-body status class, `Render` writes nothing to the body. -/
theorem render_body_nobody (c : Context) (code : Int) (r : RenderStrategy)
    (h : bodyAllowedForStatus code = false) :
    (c.Render code r).Writer.body = c.Writer.body := by
  simp only [Context.Render, Context.Status, h]
  split_ifs <;>
    simp [writeHeader, writeContentType_body] <;>
    split_ifs <;>
    simp [writeContentType_body]

/-- For a no-body status class, `Render` touches no header but the
strategy's content type. -/
theorem render_headers_nobody (c : Context) (code : Int) (r : RenderStrategy)
    (h : bodyAllowedForStatus code = false) :
    (c.Render code r).Writer.headers = (writeContentType c.Writer r).headers := by
  simp only [Context.Render, Context.Status, h]
  split_ifs <;>
    simp [writeHeader] <;>
    split_ifs <;>
    rfl

/-- When the strategy encodes successfully, `Render` leaves `c.Error`
untouched. -/
theorem render_error_ok (c : Context) (code : Int) (r : RenderStrategy)
    (chunks : List BodyChunk) (hok : r.body = Except.ok chunks) :
    (c.Render code r).Error = c.Error := by
  simp only [Context.Render, Context.Status, hok]
  split_ifs <;> rfl

theorem render_errorMsg (c : Context) (code : Int) (r : RenderStrategy) :
    (c.Render code r).ErrorMsg = c.ErrorMsg := by
  rcases hb : r.body with e | chunks <;>
    simp only [Context.Render, Context.Status, hb] <;>
    split_ifs <;>
    rfl

theorem render_index (c : Context) (code : Int) (r : RenderStrategy) :
    (c.Render code r).index = c.index := by
  rcases hb : r.body with e | chunks <;>
    simp only [Context.Render, Context.Status, hb] <;>
    split_ifs <;>
    rfl

/-- With no JSONP callback and a successfully encoding strategy, `Render` on
a body-allowing status appends exactly the strategy's chunks. -/
theorem render_body_ok (c : Context) (code : Int) (r : RenderStrategy)
    (chunks : List BodyChunk)
    (hcb : c.Request.form "callback" = "")
    (hok : r.body = Except.ok chunks)
    (hallow : bodyAllowedForStatus code = true) :
    (c.Render code r).Writer.body = c.Writer.body ++ chunks := by
  simp only [Context.Render, Context.Status, hok, hallow, hcb]
  have hesc : jsEscapeString "" = "" := rfl
  split_ifs <;>
    simp_all [writeChunks, writeHeader, writeContentType_body, jsEscapeString]
  split_ifs <;> simp [writeContentType_body]

/-- `render_body_ok` up to the writer/request of an underlying context (the
rendering entry points update `Error` and the writer's headers before calling
`Render`; neither touches the form values or the body). -/
theorem render_body_ok_from (d : Context) (code : Int) (r : RenderStrategy)
    (chunks : List BodyChunk) (c0 : Context)
    (hreq : d.Request = c0.Request)
    (hbody : d.Writer.body = c0.Writer.body)
    (hcb : c0.Request.form "callback" = "")
    (hok : r.body = Except.ok chunks)
    (hallow : bodyAllowedForStatus code = true) :
    (d.Render code r).Writer.body = c0.Writer.body ++ chunks := by
  rw [render_body_ok d code r chunks (by rw [hreq]; exact hcb) hok hallow, hbody]

/-! ## C6: reset clears the per-request state -/

/-- C6.  After `reset()`, the per-request fields hold their zero/empty
values: the embedded execution context is cleared, the dispatch index is -1
(below zero), the handler list, key/value map, error, error message, method
and route path are empty, and the route-parameter slice has length zero while
its underlying capacity is retained. -/
theorem claim_C6_reset_clears_per_request_state (c : Context) :
    (c.reset).ctx = none ∧
    (c.reset).index = -1 ∧
    (c.reset).index < 0 ∧
    (c.reset).handlers = [] ∧
    (c.reset).Keys = none ∧
    (c.reset).Error = none ∧
    (c.reset).ErrorMsg = "" ∧
    (c.reset).method = "" ∧
    (c.reset).RoutePath = "" ∧
    (c.reset).Params.items = [] ∧
    (c.reset).Params.cap = c.Params.cap :=
  ⟨rfl, rfl, by norm_num [Context.reset], rfl, rfl, rfl, rfl, rfl, rfl, rfl, rfl⟩

/-! ## C9: typed accessors -/

/-- C9.  Each typed accessor returns the stored value when the key is present
with exactly the requested dynamic type, and the type's zero value (with no
error signal — the accessors return only the value) when the key is absent or
the stored value has a different type; in particular after `Set("x", 5)`,
`GetString("x")` is `""` and `GetInt("x")` is `5`. -/
theorem claim_C9_typed_accessors (c : Context) (key : String) :
    (∀ s, c.Get key = (GoVal.vstr s, true) → c.GetString key = s) ∧
    (∀ b, c.Get key = (GoVal.vbool b, true) → c.GetBool key = b) ∧
    (∀ i, c.Get key = (GoVal.vint i, true) → c.GetInt key = i) ∧
    (∀ i, c.Get key = (GoVal.vint64 i, true) → c.GetInt64 key = i) ∧
    (∀ u, c.Get key = (GoVal.vuint u, true) → c.GetUint key = u) ∧
    (∀ u, c.Get key = (GoVal.vuint64 u, true) → c.GetUint64 key = u) ∧
    (∀ f, c.Get key = (GoVal.vfloat64 f, true) → c.GetFloat64 key = f) ∧
    ((∀ s, c.Get key ≠ (GoVal.vstr s, true)) → c.GetString key = "") ∧
    ((∀ b, c.Get key ≠ (GoVal.vbool b, true)) → c.GetBool key = false) ∧
    ((∀ i, c.Get key ≠ (GoVal.vint i, true)) → c.GetInt key = 0) ∧
    ((∀ i, c.Get key ≠ (GoVal.vint64 i, true)) → c.GetInt64 key = 0) ∧
    ((∀ u, c.Get key ≠ (GoVal.vuint u, true)) → c.GetUint key = 0) ∧
    ((∀ u, c.Get key ≠ (GoVal.vuint64 u, true)) → c.GetUint64 key = 0) ∧
    ((∀ f, c.Get key ≠ (GoVal.vfloat64 f, true)) → c.GetFloat64 key = 0) ∧
    ((c.Set "x" (GoVal.vint 5)).GetString "x" = "" ∧
      (c.Set "x" (GoVal.vint 5)).GetInt "x" = 5) := by
  refine ⟨?_, ?_, ?_, ?_, ?_, ?_, ?_, ?_, ?_, ?_, ?_, ?_, ?_, ?_, ?_⟩
  · intro s h; simp [Context.GetString, h, goValString]
  · intro b h; simp [Context.GetBool, h, goValBool]
  · intro i h; simp [Context.GetInt, h, goValInt]
  · intro i h; simp [Context.GetInt64, h, goValInt64]
  · intro u h; simp [Context.GetUint, h, goValUint]
  · intro u h; simp [Context.GetUint64, h, goValUint64]
  · intro f h; simp [Context.GetFloat64, h, goValFloat64]
  · intro h
    rcases hg : c.Get key with ⟨v, b⟩
    cases b
    · simp [Context.GetString, hg]
    · cases v <;> first
        | exact absurd hg (h _)
        | simp [Context.GetString, hg, goValString]
  · intro h
    rcases hg : c.Get key with ⟨v, b⟩
    cases b
    · simp [Context.GetBool, hg]
    · cases v <;> first
        | exact absurd hg (h _)
        | simp [Context.GetBool, hg, goValBool]
  · intro h
    rcases hg : c.Get key with ⟨v, b⟩
    cases b
    · simp [Context.GetInt, hg]
    · cases v <;> first
        | exact absurd hg (h _)
        | simp [Context.GetInt, hg, goValInt]
  · intro h
    rcases hg : c.Get key with ⟨v, b⟩
    cases b
    · simp [Context.GetInt64, hg]
    · cases v <;> first
        | exact absurd hg (h _)
        | simp [Context.GetInt64, hg, goValInt64]
  · intro h
    rcases hg : c.Get key with ⟨v, b⟩
    cases b
    · simp [Context.GetUint, hg]
    · cases v <;> first
        | exact absurd hg (h _)
        | simp [Context.GetUint, hg, goValUint]
  · intro h
    rcases hg : c.Get key with ⟨v, b⟩
    cases b
    · simp [Context.GetUint64, hg]
    · cases v <;> first
        | exact absurd hg (h _)
        | simp [Context.GetUint64, hg, goValUint64]
  · intro h
    rcases hg : c.Get key with ⟨v, b⟩
    cases b
    · simp [Context.GetFloat64, hg]
    · cases v <;> first
        | exact absurd hg (h _)
        | simp [Context.GetFloat64, hg, goValFloat64]
  · cases hk : c.Keys <;>
      simp [Context.Set, Context.Get, Context.GetString, Context.GetInt, hk,
        goMapSet, goValString, goValInt]

/-- Witness for C9 at a concrete store. -/
theorem claim_C9_witness :
    (baseCtx.Set "k" (GoVal.vstr "hello")).GetString "k" = "hello" ∧
    ((baseCtx.Set "x" (GoVal.vint 5)).GetString "x" = "" ∧
      (baseCtx.Set "x" (GoVal.vint 5)).GetInt "x" = 5) :=
  ⟨(claim_C9_typed_accessors (baseCtx.Set "k" (GoVal.vstr "hello")) "k").1
      "hello" (by decide),
    (claim_C9_typed_accessors baseCtx "x").2.2.2.2.2.2.2.2.2.2.2.2.2.2⟩

/-! ## C7: remote IP precedence -/

/-- C7.  `RemoteIP()` returns, in strict precedence: the non-empty value of
the out-of-band request-metadata store; else the first comma-separated entry
of `X-Forwarded-For`, trimmed, when non-empty; else `X-Real-Ip` trimmed
(empty string when all sources are empty).  No shape validation is applied to
the returned string. -/
theorem claim_C7_remote_ip_precedence (c : Context) :
    (metadataString c metadataRemoteIP ≠ "" →
      c.RemoteIP = metadataString c metadataRemoteIP) ∧
    (metadataString c metadataRemoteIP = "" →
      goTrimSpace ((goSplit (c.Request.headers "X-Forwarded-For") ",").getD 0 "") ≠ "" →
      c.RemoteIP =
        goTrimSpace ((goSplit (c.Request.headers "X-Forwarded-For") ",").getD 0 "")) ∧
    (metadataString c metadataRemoteIP = "" →
      goTrimSpace ((goSplit (c.Request.headers "X-Forwarded-For") ",").getD 0 "") = "" →
      c.RemoteIP = goTrimSpace (c.Request.headers "X-Real-Ip")) := by
  refine ⟨fun h1 => ?_, fun h1 h2 => ?_, fun h1 h2 => ?_⟩
  · simp only [Context.RemoteIP]
    rw [if_pos h1]
  · simp only [Context.RemoteIP]
    rw [if_neg (fun hne => hne h1), if_neg h2]
  · simp only [Context.RemoteIP]
    rw [if_neg (fun hne => hne h1), if_pos h2]

/-- Witness for C7: metadata unset, `X-Forwarded-For: "1.2.3.4, 5.6.7.8"`. -/
theorem claim_C7_witness : xffCtx.RemoteIP = "1.2.3.4" :=
  Eq.trans
    ((claim_C7_remote_ip_precedence xffCtx).2.1 (by decide) (by decide))
    (by decide)

/-! ## C8: Render status emission and the no-body class -/

theorem render_error_nobody (c : Context) (code : Int) (r : RenderStrategy)
    (h : bodyAllowedForStatus code = false) :
    (c.Render code r).Error = c.Error := by
  simp only [Context.Render, Context.Status, h]
  split_ifs <;> rfl

/-- C8.  `Render(code, strategy)` writes the HTTP status line only when the
code is positive (a non-positive code leaves the status untouched, a positive
one on a fresh writer sets it), and for a code in 100–199 or equal to 204 or
304 it writes no body bytes — only the strategy's content type reaches the
headers and the context's error is untouched. -/
theorem claim_C8_render_status_and_nobody (c : Context) (code : Int)
    (r : RenderStrategy) :
    (code ≤ 0 → (c.Render code r).Writer.status = c.Writer.status) ∧
    (0 < code → c.Writer.status = none →
      (c.Render code r).Writer.status = some code) ∧
    (((100 ≤ code ∧ code ≤ 199) ∨ code = 204 ∨ code = 304) →
      (c.Render code r).Writer.body = c.Writer.body ∧
      (c.Render code r).Writer.headers = (writeContentType c.Writer r).headers ∧
      (c.Render code r).Error = c.Error) := by
  have hns : ((100 ≤ code ∧ code ≤ 199) ∨ code = 204 ∨ code = 304) →
      bodyAllowedForStatus code = false := by
    intro h
    unfold bodyAllowedForStatus
    rcases h with h | h | h <;> split_ifs <;> simp_all
  refine ⟨fun h => ?_, fun h hf => ?_, fun h =>
    ⟨render_body_nobody c code r (hns h),
      render_headers_nobody c code r (hns h),
      render_error_nobody c code r (hns h)⟩⟩
  · rw [render_status, if_neg (by omega), writeContentType_status]
  · rw [render_status, if_pos h, writeHeader_fresh]
    rw [writeContentType_status]
    exact hf

/-- Witness for C8 at status 204. -/
theorem claim_C8_witness :
    (baseCtx.Render 204 (renderJSON 0 "0" GoVal.vnil)).Writer.status = some 204 ∧
    (baseCtx.Render 204 (renderJSON 0 "0" GoVal.vnil)).Writer.body
      = baseCtx.Writer.body := by
  have h := claim_C8_render_status_and_nobody baseCtx 204 (renderJSON 0 "0" GoVal.vnil)
  exact ⟨h.2.1 (by norm_num) rfl, (h.2.2 (Or.inr (Or.inl rfl))).1⟩

/-! ## C3: the business-code header and the transport status -/

/-- The common tail of `JSON`/`JSONMap`/`XML`/`Protobuf`: rendering with code
200 after `writeStatusCode` leaves the business code in the dedicated header
and answers HTTP 200 (on a previously fresh writer). -/
theorem render_wsc_headers_status (d : Context) (bcodeV : Int)
    (r : RenderStrategy) (w0 : ResponseWriter)
    (hw : d.Writer = writeStatusCode w0 bcodeV) (hfresh : w0.status = none) :
    (d.Render 200 r).Writer.headers "kratos-status-code"
        = some (toString bcodeV) ∧
    (d.Render 200 r).Writer.status = some 200 := by
  constructor
  · rw [render_headers_ne d 200 r _ (by decide), hw, writeStatusCode_lookup]
  · rw [render_status, if_pos (by norm_num), writeHeader_fresh]
    rw [writeContentType_status, hw, writeStatusCode_status]
    exact hfresh

/-- C3 (amended).  `JSON`, `JSONMap`, `XML` and `Protobuf` (the latter when
no marshal failure occurs) write the resolved business code as a decimal
string into the `kratos-status-code` header and answer HTTP 200; `Bytes` and
`String` write no business-code header and answer with the caller-supplied
code, and `Redirect` writes no business-code header and no status line of its
own (the redirect strategy supplies the status). -/
theorem claim_C3_bcode_header_and_transport_status (env : Env) (now : Int)
    (c : Context) (data : GoVal) (m : GoMap) (pbName : String) (bs : List Nat)
    (err : Option GoErr) (bcode0 : Int) (ct : String) (ds : List (List Nat))
    (fmt : String) (args : List GoVal) (loc : String)
    (hfresh : c.Writer.status = none) :
    ((Context.JSON env now c data err).Writer.headers "kratos-status-code"
        = some (toString (env.cause err).code) ∧
      (Context.JSON env now c data err).Writer.status = some 200) ∧
    ((Context.JSONMap env c m err).Writer.headers "kratos-status-code"
        = some (toString (env.cause err).code) ∧
      (Context.JSONMap env c m err).Writer.status = some 200) ∧
    ((Context.XML env c data err).Writer.headers "kratos-status-code"
        = some (toString (env.cause err).code) ∧
      (Context.XML env c data err).Writer.status = some 200) ∧
    ((Context.Protobuf env c none err).Writer.headers "kratos-status-code"
        = some (toString (env.cause err).code) ∧
      (Context.Protobuf env c none err).Writer.status = some 200) ∧
    ((Context.Protobuf env c (some ⟨pbName, Except.ok bs⟩) err).Writer.headers
          "kratos-status-code" = some (toString (env.cause err).code) ∧
      (Context.Protobuf env c (some ⟨pbName, Except.ok bs⟩) err).Writer.status
        = some 200) ∧
    ((c.Bytes bcode0 ct ds).Writer.headers "kratos-status-code"
        = c.Writer.headers "kratos-status-code" ∧
      (0 < bcode0 → (c.Bytes bcode0 ct ds).Writer.status = some bcode0)) ∧
    ((c.String bcode0 fmt args).Writer.headers "kratos-status-code"
        = c.Writer.headers "kratos-status-code" ∧
      (0 < bcode0 → (c.String bcode0 fmt args).Writer.status = some bcode0)) ∧
    ((c.Redirect bcode0 loc).Writer.headers "kratos-status-code"
        = c.Writer.headers "kratos-status-code" ∧
      (c.Redirect bcode0 loc).Writer.status = c.Writer.status) := by
  refine ⟨?_, ?_, ?_, ?_, ?_, ?_, ?_, ?_⟩
  · by_cases hsp : (goSplit (env.cause err).message "||").length > 1
    · simpa [Context.JSON, hsp] using
        render_wsc_headers_status
          { c with
              Error := err
              Writer := writeStatusCode c.Writer (env.cause err).code }
          (env.cause err).code
          (renderMapJSON (legacyOut (env.cause err)
            (goSplit (env.cause err).message "||") data now))
          c.Writer rfl hfresh
    · simpa [Context.JSON, hsp] using
        render_wsc_headers_status
          { c with
              Error := err
              Writer := writeStatusCode c.Writer (env.cause err).code }
          (env.cause err).code
          (renderJSON (env.cause err).code (env.cause err).message data)
          c.Writer rfl hfresh
  · simpa [Context.JSONMap] using
      render_wsc_headers_status
        { c with
            Error := err
            Writer := writeStatusCode c.Writer (env.cause err).code }
        (env.cause err).code
        (renderMapJSON (jsonMapMutate (env.cause err) m))
        c.Writer rfl hfresh
  · simpa [Context.XML] using
      render_wsc_headers_status
        { c with
            Error := err
            Writer := writeStatusCode c.Writer (env.cause err).code }
        (env.cause err).code
        (renderXML (env.cause err).code (env.cause err).message data)
        c.Writer rfl hfresh
  · simpa [Context.Protobuf] using
      render_wsc_headers_status
        { c with
            Error := err
            Writer := writeStatusCode c.Writer (env.cause err).code }
        (env.cause err).code
        (renderPB (env.cause err).code (env.cause err).message "" [])
        c.Writer rfl hfresh
  · simpa [Context.Protobuf] using
      render_wsc_headers_status
        { c with
            Error := err
            Writer := writeStatusCode c.Writer (env.cause err).code }
        (env.cause err).code
        (renderPB (env.cause err).code (env.cause err).message
          ("type.googleapis.com/" ++ pbName) bs)
        c.Writer rfl hfresh
  · exact ⟨render_headers_ne c bcode0 (renderData ct ds) _ (by decide),
      fun h0 => by
        rw [Context.Bytes, render_status, if_pos h0, writeHeader_fresh]
        rw [writeContentType_status]
        exact hfresh⟩
  · exact ⟨render_headers_ne c bcode0 (renderString fmt args) _ (by decide),
      fun h0 => by
        rw [Context.String, render_status, if_pos h0, writeHeader_fresh]
        rw [writeContentType_status]
        exact hfresh⟩
  · exact ⟨render_headers_ne c (-1) (renderRedirect bcode0 loc) _ (by decide),
      by
        rw [Context.Redirect, render_status, if_neg (by norm_num)]
        exact writeContentType_status c.Writer _⟩

/-- C3 counterexample: `Bytes` is one of the rendering entry points, yet at a
concrete call it writes no `kratos-status-code` header and answers HTTP 404,
not 200. -/
theorem claim_C3_counterexample :
    (baseCtx.Bytes 404 "text/plain" []).Writer.headers "kratos-status-code"
        = none ∧
    (baseCtx.Bytes 404 "text/plain" []).Writer.status = some 404 ∧
    ¬ (baseCtx.Bytes 404 "text/plain" []).Writer.status = some 200 := by
  decide

/-- Witness for the amended C3 at a concrete success rendering. -/
theorem claim_C3_witness :
    (Context.JSON testEnv 0 baseCtx GoVal.vnil none).Writer.headers
        "kratos-status-code" = some "0" ∧
    (Context.JSON testEnv 0 baseCtx GoVal.vnil none).Writer.status = some 200 := by
  have h := claim_C3_bcode_header_and_transport_status testEnv 0 baseCtx
    GoVal.vnil (fun _ => none) "M" [] none 1 "text/plain" [] "%s" [] "/home" rfl
  exact ⟨h.1.1.trans (by decide), h.1.2⟩

/-! ## C5: the legacy split branch of JSON -/

/-- C5.  When the resolved business message splits on `"||"` into at least
two parts, `JSON(data, err)` renders the legacy map body: `"ret"` the numeric
business code, `"code"` the part before the separator, `"message"` the part
after it, `"now"` the current Unix timestamp, `"data"` the payload; otherwise
it renders the standard `{code, message, data}` envelope with the resolved
pair and the payload. -/
theorem claim_C5_json_legacy_split (env : Env) (now : Int) (c : Context)
    (data : GoVal) (err : Option GoErr)
    (hcb : c.Request.form "callback" = "") :
    ((goSplit (env.cause err).message "||").length > 1 →
      (Context.JSON env now c data err).Writer.body
        = c.Writer.body ++ [BodyChunk.mapJSON (legacyOut (env.cause err)
            (goSplit (env.cause err).message "||") data now)] ∧
      legacyOut (env.cause err) (goSplit (env.cause err).message "||") data now
          "ret" = some (GoVal.vint (env.cause err).code) ∧
      legacyOut (env.cause err) (goSplit (env.cause err).message "||") data now
          "code"
        = some (GoVal.vstr ((goSplit (env.cause err).message "||").getD 0 "")) ∧
      legacyOut (env.cause err) (goSplit (env.cause err).message "||") data now
          "message"
        = some (GoVal.vstr ((goSplit (env.cause err).message "||").getD 1 "")) ∧
      legacyOut (env.cause err) (goSplit (env.cause err).message "||") data now
          "now" = some (GoVal.vint64 now) ∧
      legacyOut (env.cause err) (goSplit (env.cause err).message "||") data now
          "data" = some data) ∧
    (¬ (goSplit (env.cause err).message "||").length > 1 →
      (Context.JSON env now c data err).Writer.body
        = c.Writer.body ++
            [BodyChunk.jsonEnv (env.cause err).code (env.cause err).message data]) := by
  constructor
  · intro hsp
    refine ⟨?_, ?_, ?_, ?_, ?_, ?_⟩
    · simp only [Context.JSON]
      rw [if_pos hsp]
      exact render_body_ok_from _ 200 _ _ c rfl rfl hcb rfl (by decide)
    · simp [legacyOut, goMapSet]
    · simp [legacyOut, goMapSet]
    · simp [legacyOut, goMapSet]
    · simp [legacyOut, goMapSet]
    · simp [legacyOut, goMapSet]
  · intro hsp
    simp only [Context.JSON]
    rw [if_neg hsp]
    exact render_body_ok_from _ 200 _ _ c rfl rfl hcb rfl (by decide)

/-- Witness for C5 at the spec's example message `"4001||Invalid input"`. -/
theorem claim_C5_witness :
    (Context.JSON testEnv 12345 baseCtx (GoVal.vstr "payload")
        (some (GoErr.ecodeErr (-400) "4001||Invalid input"))).Writer.body
      = baseCtx.Writer.body ++ [BodyChunk.mapJSON
          (legacyOut (testEnv.cause (some (GoErr.ecodeErr (-400) "4001||Invalid input")))
            (goSplit (testEnv.cause (some (GoErr.ecodeErr (-400) "4001||Invalid input"))).message "||")
            (GoVal.vstr "payload") 12345)] ∧
    legacyOut (testEnv.cause (some (GoErr.ecodeErr (-400) "4001||Invalid input")))
        (goSplit (testEnv.cause (some (GoErr.ecodeErr (-400) "4001||Invalid input"))).message "||")
        (GoVal.vstr "payload") 12345 "ret" = some (GoVal.vint (-400)) ∧
    legacyOut (testEnv.cause (some (GoErr.ecodeErr (-400) "4001||Invalid input")))
        (goSplit (testEnv.cause (some (GoErr.ecodeErr (-400) "4001||Invalid input"))).message "||")
        (GoVal.vstr "payload") 12345 "code" = some (GoVal.vstr "4001") ∧
    legacyOut (testEnv.cause (some (GoErr.ecodeErr (-400) "4001||Invalid input")))
        (goSplit (testEnv.cause (some (GoErr.ecodeErr (-400) "4001||Invalid input"))).message "||")
        (GoVal.vstr "payload") 12345 "message" = some (GoVal.vstr "Invalid input") ∧
    legacyOut (testEnv.cause (some (GoErr.ecodeErr (-400) "4001||Invalid input")))
        (goSplit (testEnv.cause (some (GoErr.ecodeErr (-400) "4001||Invalid input"))).message "||")
        (GoVal.vstr "payload") 12345 "now" = some (GoVal.vint64 12345) := by
  have h := (claim_C5_json_legacy_split testEnv 12345 baseCtx
    (GoVal.vstr "payload") (some (GoErr.ecodeErr (-400) "4001||Invalid input"))
    rfl).1 (by decide)
  exact ⟨h.1, h.2.1.trans (by decide), h.2.2.1.trans (by decide),
    h.2.2.2.1.trans (by decide), h.2.2.2.2.1⟩

/-! ## C10: JSONMap's map mutation -/

/-- C10.  `JSONMap(data, err)` renders the caller's map after mutating it:
`"code"` is unconditionally overwritten with the resolved business code,
`"message"` is set to the resolved business message only when the map has no
`"message"` entry (a caller-supplied one is preserved), and every other entry
passes through unchanged into the rendered body. -/
theorem claim_C10_jsonmap_map_mutation (env : Env) (c : Context) (m : GoMap)
    (err : Option GoErr) (hcb : c.Request.form "callback" = "") :
    (Context.JSONMap env c m err).Writer.body
      = c.Writer.body ++ [BodyChunk.mapJSON (jsonMapMutate (env.cause err) m)] ∧
    jsonMapMutate (env.cause err) m "code"
      = some (GoVal.vint (env.cause err).code) ∧
    ((m "message").isSome →
      jsonMapMutate (env.cause err) m "message" = m "message") ∧
    (m "message" = none →
      jsonMapMutate (env.cause err) m "message"
        = some (GoVal.vstr (env.cause err).message)) ∧
    (∀ k, k ≠ "code" → k ≠ "message" → jsonMapMutate (env.cause err) m k = m k) := by
  refine ⟨?_, ?_, ?_, ?_, ?_⟩
  · simp only [Context.JSONMap]
    exact render_body_ok_from _ 200 _ _ c rfl rfl hcb rfl (by decide)
  · by_cases hm : (m "message").isSome <;> simp [jsonMapMutate, goMapSet, hm]
  · intro hm
    simp [jsonMapMutate, goMapSet, hm]
  · intro hm
    simp [jsonMapMutate, goMapSet, hm]
  · intro k h1 h2
    by_cases hm : (m "message").isSome <;>
      simp [jsonMapMutate, goMapSet, hm, h1, h2]

/-- The caller map for the C10 witness: a `"message"` to be preserved and an
unrelated entry to pass through. -/
def mFixture : GoMap :=
  goMapSet (goMapSet (fun _ => none) "message" (GoVal.vstr "keep"))
    "extra" (GoVal.vint 7)

/-- Witness for C10 on a concrete map. -/
theorem claim_C10_witness :
    (Context.JSONMap testEnv baseCtx mFixture none).Writer.body
      = baseCtx.Writer.body ++
          [BodyChunk.mapJSON (jsonMapMutate (testEnv.cause none) mFixture)] ∧
    jsonMapMutate (testEnv.cause none) mFixture "code" = some (GoVal.vint 0) ∧
    jsonMapMutate (testEnv.cause none) mFixture "message"
      = some (GoVal.vstr "keep") ∧
    jsonMapMutate (testEnv.cause none) mFixture "extra" = some (GoVal.vint 7) := by
  have h := claim_C10_jsonmap_map_mutation testEnv baseCtx mFixture none rfl
  exact ⟨h.1, h.2.1.trans (by decide), (h.2.2.1 (by decide)).trans (by decide),
    (h.2.2.2.2 "extra" (by decide) (by decide)).trans (by decide)⟩

/-! ## C4: binding failure handling -/

/-- C4.  When the binding strategy's decode+validate step fails,
`mustBindWith` (and so `BindWith` and `Bind`, which delegate to it) sets the
context's `Error` to the canonical bad-request code, `ErrorMsg` to the raw
error text, writes an HTTP-200 JSON envelope whose code is the bad-request
code and whose message is the raw error string — or, for a validation-errors
collection, the translated field messages each followed by the `";"`
delimiter — and aborts the handler chain; when the step succeeds it returns
nil and writes nothing. -/
theorem claim_C4_bind_failure_envelope (env : Env) (c : Context) (b : Binding)
    (hcb : c.Request.form "callback" = "") (hfresh : c.Writer.status = none) :
    (∀ e, b.bind c.Request = some e →
      (c.mustBindWith env b).1.Error
          = some (GoErr.ecodeErr env.requestErr.code env.requestErr.message) ∧
      (c.mustBindWith env b).1.ErrorMsg = e.errString ∧
      (c.mustBindWith env b).1.Writer.status = some 200 ∧
      (c.mustBindWith env b).1.Writer.body
          = c.Writer.body ++
              [BodyChunk.jsonEnv env.requestErr.code (bindErrMessage e) GoVal.vnil] ∧
      (∀ raw translated, e = GoErr.validation raw translated →
        bindErrMessage e
          = List.foldl (fun acc v => acc ++ v ++ ";") "" translated) ∧
      ((∀ raw translated, e ≠ GoErr.validation raw translated) →
        bindErrMessage e = e.errString) ∧
      (c.mustBindWith env b).1.index = abortSentinel ∧
      (c.mustBindWith env b).2 = some e) ∧
    (b.bind c.Request = none → c.mustBindWith env b = (c, none)) ∧
    (c.BindWith env b = c.mustBindWith env b) ∧
    (∀ defaultB : String → String → Binding,
      c.Bind env defaultB
        = c.mustBindWith env
            (defaultB c.Request.method (c.Request.headers "Content-Type"))) := by
  refine ⟨?_, fun h => by simp [Context.mustBindWith, h], rfl, fun defaultB => rfl⟩
  intro e he
  simp only [Context.mustBindWith, he]
  refine ⟨?_, ?_, ?_, ?_, ?_, ?_, ?_, ?_⟩
  · rw [show ∀ d : Context, (d.Abort).Error = d.Error from fun d => rfl]
    rw [render_error_ok _ 200 _ _ rfl]
  · rw [show ∀ d : Context, (d.Abort).ErrorMsg = d.ErrorMsg from fun d => rfl]
    rw [render_errorMsg]
  · rw [show ∀ d : Context, (d.Abort).Writer = d.Writer from fun d => rfl]
    rw [render_status, if_pos (by norm_num), writeHeader_fresh]
    rw [writeContentType_status]
    exact hfresh
  · rw [show ∀ d : Context, (d.Abort).Writer = d.Writer from fun d => rfl]
    exact render_body_ok_from _ 200 _ _ c rfl rfl hcb rfl (by decide)
  · intro raw translated hrw
    subst hrw
    simp [bindErrMessage]
  · intro hne
    cases e <;> first
      | exact absurd rfl (hne _ _)
      | simp [bindErrMessage]
  · trivial
  · trivial

/-- Witness for C4 at a concrete failing binding. -/
theorem claim_C4_witness :
    (baseCtx.mustBindWith testEnv ⟨fun _ => some (GoErr.plain "EOF")⟩).1.Error
        = some (GoErr.ecodeErr (-400) "-400") ∧
    (baseCtx.mustBindWith testEnv ⟨fun _ => some (GoErr.plain "EOF")⟩).1.ErrorMsg
        = "EOF" ∧
    (baseCtx.mustBindWith testEnv ⟨fun _ => some (GoErr.plain "EOF")⟩).1.Writer.status
        = some 200 ∧
    (baseCtx.mustBindWith testEnv ⟨fun _ => some (GoErr.plain "EOF")⟩).1.index
        = abortSentinel := by
  have h := (claim_C4_bind_failure_envelope testEnv baseCtx
    ⟨fun _ => some (GoErr.plain "EOF")⟩ rfl rfl).1 (GoErr.plain "EOF") rfl
  exact ⟨h.1, h.2.1, h.2.2.1, h.2.2.2.2.2.2.1⟩

end BM
